import Mathlib

/-!
Verification of the NAMASTE → ICD-11 code-mapping engine
(`backend/setup/auto_mapping.py`, `backend/setup/mapping_algorithm.py`).

Python strings are modelled as Lean `String`s, with the character-level
operations (`str.strip`, `str.split`, regular-expression extraction)
implemented on `List Char` and wrapped.  Python `float` scores are modelled
as exact rationals `ℚ`.  The external ICD API client and the spaCy NLP
model are the I/O boundary: they are modelled as an explicit context of
functions (`IcdCtx`), where `Option.none` in a result marks a raised
exception at the corresponding call site.
-/

namespace AutoMap

open List (Sublist)
open scoped List

/-! ## Python string primitives -/

/-- Characters before buffering stops: `dropWhile` of whitespace from the left,
modelling the left half of Python `str.strip()`. -/
def dropWS (l : List Char) : List Char := l.dropWhile Char.isWhitespace

/-- Remove trailing whitespace, modelling the right half of Python `str.strip()`. -/
def trimRight (l : List Char) : List Char := (l.reverse.dropWhile Char.isWhitespace).reverse

/-- Python `str.strip()` on the character list. -/
def stripList (l : List Char) : List Char := trimRight (dropWS l)

/-- Python `str.strip()`. -/
def pyStrip (s : String) : String := ⟨stripList s.data⟩

/-- Python `str.split(sep)` on a character list: splits at every separator,
keeping empty pieces, and always returns at least one piece. -/
def splitChar (sep : Char) : List Char → List Char × List (List Char)
  | [] => ([], [])
  | c :: rest =>
      let (piece, pieces) := splitChar sep rest
      if c = sep then ([], piece :: pieces) else (c :: piece, pieces)

/-- Python `s.split(sep)[-1]`: the final piece of the split. -/
def lastPiece (sep : Char) (l : List Char) : List Char :=
  let (piece, pieces) := splitChar sep l
  (pieces.getLastD piece)

/-- Python `s.split('/')[-1]`, as used on entity ids and stem ids. -/
def lastSeg (s : String) : String := ⟨lastPiece '/' s.data⟩

/-- Python `str.startswith`. -/
def pyStartsWith (s pre : String) : Bool := pre.data.isPrefixOf s.data

/-! ## ConceptLoader: code-field extraction (`auto_mapping.py` lines 20–36) -/

/-- Leftmost match of the regular expression `\(([^)]+)\)`: the content between
the first `'('` that is followed by at least one non-`')'` character and then a
`')'`.  `none` when no position matches. -/
def parenContent : List Char → Option (List Char)
  | [] => none
  | c :: rest =>
      if c = '(' then
        let content := rest.takeWhile (· ≠ ')')
        if content ≠ [] ∧ rest.dropWhile (· ≠ ')') ≠ [] then some content
        else parenContent rest
      else parenContent rest

/-- `extract_namaste_id` (`auto_mapping.py` lines 20–25): the first parenthesized
group of the code when present, otherwise the whole code string. -/
def extract_namaste_id (namc_code : String) : String :=
  match parenContent namc_code.data with
  | some content => ⟨content⟩
  | none => namc_code

/-- The prefix whitelist of `extract_icd_mapping`. -/
def validIcdStarts : List String := ["SR", "SK", "SM", "SL", "SN", "SP", "SQ"]

/-- `extract_icd_mapping` (`auto_mapping.py` lines 27–36): match `^([^(]+)` on the
stripped code, strip the match, and keep it only when it starts with one of the
whitelisted prefixes. -/
def extract_icd_mapping (namc_code : String) : Option String :=
  let t := stripList namc_code.data
  let matched := t.takeWhile (· ≠ '(')
  if matched = [] then none
  else
    let icd_part : String := ⟨stripList matched⟩
    if validIcdStarts.any (fun p => pyStartsWith icd_part p) then some icd_part
    else none

/-! ## EquivalenceClassifier (`auto_mapping.py` lines 58–66) -/

/-- `determine_equivalence` (`auto_mapping.py` lines 58–66). -/
def determine_equivalence (score : ℚ) : String :=
  if score ≥ 0.85 then "equivalent"
  else if score ≥ 0.75 then "equal"
  else if score ≥ 0.60 then "wider"
  else "relatedto"

/-! ## External boundary: ICD API client and spaCy model

Each field models one observable behaviour of the external services.  An
outer `none` models the call raising an exception; an inner `none` models a
missing key in the returned JSON dictionary. -/

/-- A search hit from `search_conditions`: its `"title"` and `"@id"` fields,
with `""` as the Python `.get(key, "")` default for a missing key. -/
structure Candidate where
  title : String
  atId : String
deriving DecidableEq

/-- The external world as seen by the mapping engine. -/
structure IcdCtx where
  /-- `search_conditions(query, limit)["destinationEntities"]`. -/
  searchConditions : String → ℕ → List Candidate
  /-- `get_entity_details(id)["definition"]["@value"]` in the resolver:
  `none` = call raised, `some none` = no such key path, `some (some d)` = value. -/
  entityDefinition : String → Option (Option String)
  /-- `get_entity_context(id)["code"]`: same convention. -/
  entityContextCode : String → Option (Option String)
  /-- `search_code(code)["stemId"]`: `none` = call raised, `some none` = key
  missing (so the subsequent `.split` raises), `some (some s)` = value. -/
  searchCode : String → Option (Option String)
  /-- `get_entity_details(id)["title"]["@value"]` in the existing-mapping path:
  `none` = call raised, `some none` = no `"title"` key (so `.get` on `None`
  raises), `some (some none)` = title dict without `"@value"`,
  `some (some (some t))` = value. -/
  detailsTitle : String → Option (Option (Option String))
  /-- spaCy `nlp(a).similarity(nlp(b))`: cosine similarity of the two docs. -/
  sim : String → String → ℚ
  /-- The set of lowercased lemmas of the non-stop, non-punctuation tokens of
  `nlp(text)`. -/
  lemmaSet : String → Finset String

/-! ## SimilarityScorer (`mapping_algorithm.py` lines 36–66) -/

/-- `MappingSuggester._calculate_similarity_score`: 0.0 when either text is
empty, otherwise the model's cosine similarity, returned unclamped. -/
def calculate_similarity_score (ctx : IcdCtx) (text1 text2 : String) : ℚ :=
  if text1 = "" ∨ text2 = "" then 0 else ctx.sim text1 text2

/-- `MappingSuggester._calculate_keyword_score`: Jaccard coefficient of the two
lemma sets, 0.0 when the union is empty. -/
def calculate_keyword_score (ctx : IcdCtx) (text1 text2 : String) : ℚ :=
  let lemmas1 := ctx.lemmaSet text1
  let lemmas2 := ctx.lemmaSet text2
  let inter := lemmas1 ∩ lemmas2
  let uni := lemmas1 ∪ lemmas2
  if uni = ∅ then 0 else (inter.card : ℚ) / (uni.card : ℚ)

/-- `self.similarity_weight` (`mapping_algorithm.py` line 33). -/
def similarity_weight : ℚ := 0.7

/-- `self.keyword_weight` (`mapping_algorithm.py` line 34). -/
def keyword_weight : ℚ := 0.3

/-! ## MappingResolver (`MappingSuggester.suggest_mappings`, lines 68–123) -/

/-- One entry of `scored_suggestions`, with the two components of
`score_details` kept as fields. -/
structure Suggestion where
  icd_code : String
  icd_term : String
  icd_definition : String
  score : ℚ
  simScore : ℚ
  kwScore : ℚ
deriving DecidableEq

/-- The body of the candidate loop (`suggest_mappings` lines 84–119): `none`
when the candidate is skipped for a missing title or id, otherwise the scored
suggestion.  A raised exception in the details block (`entityDefinition` or
`entityContextCode` = `none`) falls back to the candidate's own title as its
definition and to the code `"Error fetching"`. -/
def scoreCandidate (ctx : IcdCtx) (namaste_definition : String) (c : Candidate) :
    Option Suggestion :=
  let icd_term := pyStrip c.title
  let icd_id := lastSeg c.atId
  if icd_term = "" ∨ icd_id = "" then none
  else
    let (icd_definition, icd_code) :=
      match ctx.entityDefinition icd_id, ctx.entityContextCode icd_id with
      | some dv, some cv => (dv.getD icd_term, cv.getD "Err")
      | _, _ => (icd_term, "Error fetching")
    let similarity_score := calculate_similarity_score ctx namaste_definition icd_definition
    let keyword_score := calculate_keyword_score ctx namaste_definition icd_definition
    some { icd_code := icd_code
           icd_term := icd_term
           icd_definition := icd_definition
           score := similarity_score * similarity_weight + keyword_score * keyword_weight
           simScore := similarity_score
           kwScore := keyword_score }

/-- The `scored_suggestions` list: the candidate loop in source order. -/
def scoredSuggestions (ctx : IcdCtx) (namaste_definition : String)
    (candidates : List Candidate) : List Suggestion :=
  candidates.filterMap (scoreCandidate ctx namaste_definition)

/-- The comparison passed to Python `sorted(..., key=lambda x: x.score,
reverse=True)`: descending by score, stable. -/
def byScoreDesc (a b : Suggestion) : Bool := decide (b.score ≤ a.score)

/-- The `ranked_suggestions` list (line 121): a stable sort, descending by
`score`. -/
def rankSuggestions (l : List Suggestion) : List Suggestion :=
  l.mergeSort byScoreDesc

/-- `MappingSuggester.suggest_mappings` (lines 68–123): search with a limit of
20, score the candidates, rank them, return the first `top_n`. -/
def suggest_mappings (ctx : IcdCtx) (namaste_term namaste_definition : String)
    (top_n : ℕ) : List Suggestion :=
  let search_query := namaste_term ++ " " ++ namaste_definition
  let candidates := ctx.searchConditions search_query 20
  if candidates = [] then []
  else (rankSuggestions (scoredSuggestions ctx namaste_definition candidates)).take top_n

/-! ## BatchOrchestrator (`auto_mapping.py` lines 84–158) -/

/-- One loaded concept row (`load_namaste_concepts_from_csv`): the
`existing_icd_mapping` column is `None`/NaN exactly when `extract_icd_mapping`
returned nothing, and `has_existing_mapping = pd.notna(...)` is its
`isSome`. -/
structure SourceConcept where
  code : String
  original_namc_code : String
  term : String
  definition : String
  existing_icd_mapping : Option String
deriving DecidableEq

/-- One row of the generated CSV (`final_mappings` entries). -/
structure MappingRow where
  namaste_code : String
  namaste_term : String
  icd_code : String
  icd_term : String
  equivalence : String
  confidence_score : ℚ
  mapping_source : String
  original_namc_code : String
deriving DecidableEq

/-- Python `round(x, 4)` on the score, modelled as exact rounding of the
rational to four decimal places (the float round-half-to-even boundary is below
the granularity any claim touches). -/
def round4 (q : ℚ) : ℚ := (round (q * 10000) : ℤ) / 10000

/-- `get_icd_term_for_existing_mapping` (lines 84–92): resolve the reference
term for a known code; any exception in the chain yields the placeholder
`"Unknown ICD Term"`, and a title dict without `"@value"` yields `"Nan"`. -/
def get_icd_term_for_existing_mapping (ctx : IcdCtx) (icd_code : String) : String :=
  match ctx.searchCode icd_code with
  | some (some stemId) =>
      match ctx.detailsTitle (lastSeg stemId) with
      | some (some (some t)) => t
      | some (some none) => "Nan"
      | _ => "Unknown ICD Term"
  | _ => "Unknown ICD Term"

/-- The record appended for a concept with an existing mapping
(lines 111–124). -/
def existingRow (ctx : IcdCtx) (c : SourceConcept) : MappingRow :=
  let icd_code := c.existing_icd_mapping.getD ""
  { namaste_code := c.code
    namaste_term := c.term
    icd_code := icd_code
    icd_term := get_icd_term_for_existing_mapping ctx icd_code
    equivalence := "equivalent"
    confidence_score := 1
    mapping_source := "existing"
    original_namc_code := c.original_namc_code }

/-- The record appended for a concept routed through the resolver
(lines 131–147): `none` when `suggest_mappings` returned no suggestion. -/
def generatedRow (ctx : IcdCtx) (c : SourceConcept) : Option MappingRow :=
  match suggest_mappings ctx c.term c.definition 5 with
  | [] => none
  | top :: _ =>
      some { namaste_code := c.code
             namaste_term := c.term
             icd_code := top.icd_code
             icd_term := top.icd_term
             equivalence := determine_equivalence top.score
             confidence_score := round4 top.score
             mapping_source := "generated"
             original_namc_code := c.original_namc_code }

/-- The body of the needs-mapping loop (lines 127–151): the empty-term guard
(`if not concept['term'].strip(): continue`) runs before the resolver. -/
def newRecord (ctx : IcdCtx) (c : SourceConcept) : Option MappingRow :=
  if pyStrip c.term = "" then none else generatedRow ctx c

/-- `create_mapping_file` (lines 94–158) restricted to its pure content: the
`final_mappings` list built by the two loops — first every concept with an
existing mapping, then every concept that needs one. -/
def create_mapping_file (ctx : IcdCtx) (concepts : List SourceConcept) :
    List MappingRow :=
  let existing_mappings := concepts.filter (fun c => c.existing_icd_mapping.isSome)
  let needs_mapping := concepts.filter (fun c => !c.existing_icd_mapping.isSome)
  let afterExisting :=
    existing_mappings.foldl (fun acc c => acc ++ [existingRow ctx c]) []
  needs_mapping.foldl (fun acc c => acc ++ (newRecord ctx c).toList) afterExisting

/-! ## Concrete fixtures

Closed contexts and inputs used to instantiate the theorems on concrete
data.  `ctx0` is the everything-fails world: the search returns nothing, every
details call raises, the embedding model returns cosine 0 and no lemmas. -/

/-- A context in which every external call fails or returns nothing. -/
def ctx0 : IcdCtx where
  searchConditions := fun _ _ => []
  entityDefinition := fun _ => none
  entityContextCode := fun _ => none
  searchCode := fun _ => none
  detailsTitle := fun _ => none
  sim := fun _ _ => 0
  lemmaSet := fun _ => ∅

/-- A context whose embedding model reports a negative cosine similarity. -/
def ctxNeg : IcdCtx := { ctx0 with sim := fun _ _ => -(1/2) }

/-- A first search candidate. -/
def cand1 : Candidate := { title := "T1", atId := "i1" }

/-- A second search candidate. -/
def cand2 : Candidate := { title := "T2", atId := "i2" }

/-- A context whose search finds one candidate and whose details calls
succeed. -/
def ctxOne : IcdCtx :=
  { ctx0 with
    searchConditions := fun _ _ => [cand1]
    entityDefinition := fun _ => some (some "hd")
    entityContextCode := fun _ => some (some "C1")
    sim := fun _ _ => 1 }

/-- A concept with a whitespace-only term that still carries an existing
reference mapping. -/
def emptyTermConcept : SourceConcept :=
  { code := "AAA-1"
    original_namc_code := "SR11 (AAA-1)"
    term := " "
    definition := ""
    existing_icd_mapping := some "SR11" }

/-- A plain concept with no existing mapping. -/
def plainConcept : SourceConcept :=
  { code := "AAB-2"
    original_namc_code := "AAB-2"
    term := "fever"
    definition := "elevated body temperature"
    existing_icd_mapping := none }

/-- The suggestion `scoreCandidate` produces for `cand1` under `ctxOne`. -/
def sOne : Suggestion :=
  { icd_code := "C1"
    icd_term := "T1"
    icd_definition := "hd"
    score := 7/10
    simScore := 1
    kwScore := 0 }

/-- The suggestion `scoreCandidate` produces for `cand1` under `ctx0`. -/
def sZero1 : Suggestion :=
  { icd_code := "Error fetching"
    icd_term := "T1"
    icd_definition := "T1"
    score := 0
    simScore := 0
    kwScore := 0 }

/-- The suggestion `scoreCandidate` produces for `cand2` under `ctx0`. -/
def sZero2 : Suggestion :=
  { icd_code := "Error fetching"
    icd_term := "T2"
    icd_definition := "T2"
    score := 0
    simScore := 0
    kwScore := 0 }

/-! # Theorems -/

/-! ## Helper lemmas -/

/-- Every member of the resolver's output comes from `scoreCandidate` on some
candidate. -/
lemma exists_candidate_of_mem_suggest {ctx : IcdCtx} {t d : String} {n : ℕ}
    {s : Suggestion} (hs : s ∈ suggest_mappings ctx t d n) :
    ∃ c, scoreCandidate ctx d c = some s := by
  unfold suggest_mappings at hs
  by_cases hc : ctx.searchConditions (t ++ " " ++ d) 20 = []
  · simp [hc] at hs
  · simp only [if_neg hc] at hs
    have h1 : s ∈ rankSuggestions
        (scoredSuggestions ctx d (ctx.searchConditions (t ++ " " ++ d) 20)) :=
      (List.take_sublist _ _).subset hs
    have h2 : s ∈ scoredSuggestions ctx d (ctx.searchConditions (t ++ " " ++ d) 20) := by
      simpa [rankSuggestions] using h1
    obtain ⟨c, _, hcs⟩ := List.mem_filterMap.mp h2
    exact ⟨c, hcs⟩

/-- The score recorded in a scored suggestion is the weighted sum of its two
recorded component scores. -/
lemma scoreCandidate_score {ctx : IcdCtx} {d : String} {c : Candidate}
    {s : Suggestion} (h : scoreCandidate ctx d c = some s) :
    s.score = s.simScore * similarity_weight + s.kwScore * keyword_weight := by
  unfold scoreCandidate at h
  by_cases h1 : pyStrip c.title = "" ∨ lastSeg c.atId = ""
  · simp [h1] at h
  · simp only [if_neg h1] at h
    rcases hE : ctx.entityDefinition (lastSeg c.atId) with _ | dv <;>
      rcases hC : ctx.entityContextCode (lastSeg c.atId) with _ | cv <;>
        simp only [hE, hC, Option.some.injEq] at h <;> subst h <;> rfl

/-- C4: the equivalence classifier used by the batch returns "equivalent" for
scores at or above 0.85, "equal" on [0.75, 0.85), "wider" on [0.60, 0.75) and
"relatedto" below 0.60, with each boundary in the upper category. -/
theorem determine_equivalence_thresholds (s : ℚ) :
    (0.85 ≤ s → determine_equivalence s = "equivalent") ∧
    (0.75 ≤ s → s < 0.85 → determine_equivalence s = "equal") ∧
    (0.60 ≤ s → s < 0.75 → determine_equivalence s = "wider") ∧
    (s < 0.60 → determine_equivalence s = "relatedto") := by
  unfold determine_equivalence
  refine ⟨?_, ?_, ?_, ?_⟩ <;> intros <;> split_ifs <;> first | rfl | linarith

/-- Witness for C4 at the boundary scores and the spec's sample scores. -/
theorem determine_equivalence_thresholds_witness :
    determine_equivalence 0.90 = "equivalent" ∧
    determine_equivalence 0.80 = "equal" ∧
    determine_equivalence 0.65 = "wider" ∧
    determine_equivalence 0.10 = "relatedto" ∧
    determine_equivalence 0.85 = "equivalent" ∧
    determine_equivalence 0.75 = "equal" ∧
    determine_equivalence 0.60 = "wider" :=
  ⟨(determine_equivalence_thresholds 0.90).1 (by norm_num),
   (determine_equivalence_thresholds 0.80).2.1 (by norm_num) (by norm_num),
   (determine_equivalence_thresholds 0.65).2.2.1 (by norm_num) (by norm_num),
   (determine_equivalence_thresholds 0.10).2.2.2 (by norm_num),
   (determine_equivalence_thresholds 0.85).1 (by norm_num),
   (determine_equivalence_thresholds 0.75).2.1 (by norm_num) (by norm_num),
   (determine_equivalence_thresholds 0.60).2.2.1 (by norm_num) (by norm_num)⟩

/-- C6: every suggestion the resolver returns has
`combinedScore = semanticWeight · semanticScore + lexicalWeight · lexicalScore`,
and the weights are 0.7 and 0.3 and sum to 1. -/
theorem combined_score_is_weighted_sum (ctx : IcdCtx) (t d : String) (n : ℕ)
    (s : Suggestion) (hs : s ∈ suggest_mappings ctx t d n) :
    s.score = similarity_weight * s.simScore + keyword_weight * s.kwScore ∧
    similarity_weight + keyword_weight = 1 ∧
    similarity_weight = 0.7 ∧ keyword_weight = 0.3 := by
  obtain ⟨c, hc⟩ := exists_candidate_of_mem_suggest hs
  have h := scoreCandidate_score hc
  refine ⟨by rw [h]; ring, by norm_num [similarity_weight, keyword_weight], rfl, rfl⟩

/-- A candidate whose stripped title and extracted id are nonempty is scored
even when the details call raises, with its own title as the definition. -/
lemma scoreCandidate_fallback {ctx : IcdCtx} {d : String} {c : Candidate}
    (h1 : pyStrip c.title ≠ "") (h2 : lastSeg c.atId ≠ "")
    (h3 : ctx.entityDefinition (lastSeg c.atId) = none) :
    scoreCandidate ctx d c = some
      { icd_code := "Error fetching"
        icd_term := pyStrip c.title
        icd_definition := pyStrip c.title
        score := calculate_similarity_score ctx d (pyStrip c.title) * similarity_weight +
          calculate_keyword_score ctx d (pyStrip c.title) * keyword_weight
        simScore := calculate_similarity_score ctx d (pyStrip c.title)
        kwScore := calculate_keyword_score ctx d (pyStrip c.title) } := by
  rcases hC : ctx.entityContextCode (lastSeg c.atId) with _ | cv <;>
    simp only [scoreCandidate, h3, hC] <;> rw [if_neg (by tauto)]

/-- Scorer evaluation in the all-failing context `ctx0`. -/
lemma calc_scores_ctx0 (t u : String) (ht : t ≠ "") (hu : u ≠ "") :
    calculate_similarity_score ctx0 t u = 0 ∧ calculate_keyword_score ctx0 t u = 0 := by
  constructor
  · unfold calculate_similarity_score
    rw [if_neg (by tauto)]
    rfl
  · simp only [calculate_keyword_score, ctx0]
    simp

/-- Evaluation of the candidate loop body for `cand1` under `ctx0`. -/
lemma scoreCandidate_ctx0_cand1 : scoreCandidate ctx0 "d" cand1 = some sZero1 := by
  have hT : pyStrip cand1.title = "T1" := by decide
  rw [@scoreCandidate_fallback ctx0 "d" cand1 (by decide) (by decide) rfl, hT]
  obtain ⟨hs, hk⟩ := calc_scores_ctx0 "d" "T1" (by decide) (by decide)
  rw [hs, hk]
  norm_num [sZero1]

/-- Evaluation of the candidate loop body for `cand2` under `ctx0`. -/
lemma scoreCandidate_ctx0_cand2 : scoreCandidate ctx0 "d" cand2 = some sZero2 := by
  have hT : pyStrip cand2.title = "T2" := by decide
  rw [@scoreCandidate_fallback ctx0 "d" cand2 (by decide) (by decide) rfl, hT]
  obtain ⟨hs, hk⟩ := calc_scores_ctx0 "d" "T2" (by decide) (by decide)
  rw [hs, hk]
  norm_num [sZero2]

/-- Evaluation of the candidate loop body for `cand1` under `ctxOne`. -/
lemma scoreCandidate_ctxOne_cand1 : scoreCandidate ctxOne "hot" cand1 = some sOne := by
  have hED : ctxOne.entityDefinition (lastSeg cand1.atId) = some (some "hd") := rfl
  have hEC : ctxOne.entityContextCode (lastSeg cand1.atId) = some (some "C1") := rfl
  simp only [scoreCandidate, hED, hEC, Option.getD_some]
  rw [if_neg (by decide)]
  have hs : calculate_similarity_score ctxOne "hot" "hd" = 1 := by
    unfold calculate_similarity_score
    rw [if_neg (by decide)]
    rfl
  have hk : calculate_keyword_score ctxOne "hot" "hd" = 0 := by
    simp only [calculate_keyword_score]
    have h1 : ctxOne.lemmaSet "hot" = ∅ := rfl
    have h2 : ctxOne.lemmaSet "hd" = ∅ := rfl
    rw [h1, h2]
    simp
  have hT : pyStrip cand1.title = "T1" := by decide
  rw [hs, hk, hT]
  norm_num [sOne, similarity_weight, keyword_weight]

/-- Witness for C6: a concrete run of the resolver whose one suggestion
satisfies the weighted-sum invariant. -/
theorem combined_score_is_weighted_sum_witness :
    sOne.score = similarity_weight * sOne.simScore + keyword_weight * sOne.kwScore ∧
    similarity_weight + keyword_weight = 1 := by
  have hmem : sOne ∈ suggest_mappings ctxOne "fever" "hot" 5 := by
    have h1 : scoredSuggestions ctxOne "hot" [cand1] = [sOne] := by
      simp [scoredSuggestions, scoreCandidate_ctxOne_cand1]
    have hsc : ctxOne.searchConditions ("fever" ++ " " ++ "hot") 20 = [cand1] := rfl
    have step : suggest_mappings ctxOne "fever" "hot" 5 =
        (rankSuggestions (scoredSuggestions ctxOne "hot" [cand1])).take 5 := by
      simp only [suggest_mappings, hsc]
      rw [if_neg (by decide)]
    rw [step, h1, rankSuggestions, List.mergeSort_singleton]
    simp
  have h := combined_score_is_weighted_sum ctxOne "fever" "hot" 5 sOne hmem
  exact ⟨h.1, h.2.1⟩

/-- C7: when the search (issued with limit 20) returns no candidates, the
resolver returns the empty suggestion list and the batch loop emits no record
for the concept. -/
theorem empty_search_yields_no_record (ctx : IcdCtx) (c : SourceConcept) (n : ℕ)
    (h : ctx.searchConditions (c.term ++ " " ++ c.definition) 20 = []) :
    suggest_mappings ctx c.term c.definition n = [] ∧ newRecord ctx c = none := by
  have hs : ∀ m, suggest_mappings ctx c.term c.definition m = [] := by
    intro m; unfold suggest_mappings; simp [h]
  refine ⟨hs n, ?_⟩
  unfold newRecord generatedRow
  rw [hs 5]
  split <;> rfl

/-- Witness for C7: under the empty-search context no record is produced for
the plain concept. -/
theorem empty_search_yields_no_record_witness :
    suggest_mappings ctx0 plainConcept.term plainConcept.definition 5 = [] ∧
    newRecord ctx0 plainConcept = none :=
  empty_search_yields_no_record ctx0 plainConcept 5 rfl

/-- C8: a candidate with an empty (stripped) title or an empty id is skipped and
never scored; a candidate with both present survives a failing details fetch,
its definition falling back to its own title, and it still enters the scored
pool. -/
theorem candidate_skip_and_fallback (ctx : IcdCtx) (d : String) (c : Candidate)
    (cands : List Candidate) (s : Suggestion) :
    ((pyStrip c.title = "" ∨ lastSeg c.atId = "") → scoreCandidate ctx d c = none) ∧
    (pyStrip c.title ≠ "" → lastSeg c.atId ≠ "" →
      ctx.entityDefinition (lastSeg c.atId) = none →
      ∃ s', scoreCandidate ctx d c = some s' ∧
        s'.icd_definition = pyStrip c.title ∧ s'.icd_code = "Error fetching") ∧
    (c ∈ cands → scoreCandidate ctx d c = some s →
      s ∈ scoredSuggestions ctx d cands) := by
  refine ⟨fun h => by unfold scoreCandidate; simp [h], fun h1 h2 h3 => ?_, fun hm hs => ?_⟩
  · exact ⟨_, scoreCandidate_fallback h1 h2 h3, rfl, rfl⟩
  · exact List.mem_filterMap.mpr ⟨c, hm, hs⟩

/-- Witness for C8: a blank-titled candidate is skipped, and under the
all-failing context `cand1` is still scored with its title as definition. -/
theorem candidate_skip_and_fallback_witness :
    scoreCandidate ctx0 "d" { title := " ", atId := "i" } = none ∧
    (∃ s', scoreCandidate ctx0 "d" cand1 = some s' ∧
      s'.icd_definition = pyStrip cand1.title ∧ s'.icd_code = "Error fetching") ∧
    sZero1 ∈ scoredSuggestions ctx0 "d" [cand1] :=
  ⟨(candidate_skip_and_fallback ctx0 "d" { title := " ", atId := "i" } [] sZero1).1
      (Or.inl (by decide)),
   (candidate_skip_and_fallback ctx0 "d" cand1 [] sZero1).2.1
      (by decide) (by decide) rfl,
   (candidate_skip_and_fallback ctx0 "d" cand1 [cand1] sZero1).2.2
      (by decide) scoreCandidate_ctx0_cand1⟩

/-! ## C1: score ranges -/

/-- Counterexample to C1 as stated: the semantic score is the raw model cosine,
not clamped at 0 — in a context whose cosine similarities all lie in [-1, 1]
the scorer returns a negative semantic score. -/
theorem semantic_score_not_clamped :
    (∀ a b : String, -1 ≤ ctxNeg.sim a b ∧ ctxNeg.sim a b ≤ 1) ∧
    calculate_similarity_score ctxNeg "a" "b" = -(1/2) ∧
    ¬(0 ≤ calculate_similarity_score ctxNeg "a" "b") := by
  have hv : calculate_similarity_score ctxNeg "a" "b" = -(1/2) := by
    unfold calculate_similarity_score
    rw [if_neg (by decide)]
    rfl
  refine ⟨fun a b => ?_, hv, ?_⟩
  · show (-1 : ℚ) ≤ -(1/2) ∧ (-(1/2) : ℚ) ≤ 1
    norm_num
  · rw [hv]
    norm_num

/-- C1 amended: the lexical (Jaccard) score always lies in [0, 1]; the semantic
score is passed through unclamped, so when the model's cosine lies in [-1, 1]
the semantic score lies in [-1, 1] and the combined weighted score lies in
[-0.7, 1]; all three lie in [0, 1] when the model's cosine is nonnegative. -/
theorem scorer_bounds (ctx : IcdCtx) (t1 t2 : String)
    (hcos : ∀ a b : String, -1 ≤ ctx.sim a b ∧ ctx.sim a b ≤ 1) :
    (0 ≤ calculate_keyword_score ctx t1 t2 ∧ calculate_keyword_score ctx t1 t2 ≤ 1) ∧
    (-1 ≤ calculate_similarity_score ctx t1 t2 ∧ calculate_similarity_score ctx t1 t2 ≤ 1) ∧
    (-(7/10) ≤ calculate_similarity_score ctx t1 t2 * similarity_weight +
        calculate_keyword_score ctx t1 t2 * keyword_weight ∧
      calculate_similarity_score ctx t1 t2 * similarity_weight +
        calculate_keyword_score ctx t1 t2 * keyword_weight ≤ 1) ∧
    ((∀ a b : String, 0 ≤ ctx.sim a b) →
      0 ≤ calculate_similarity_score ctx t1 t2 ∧
      0 ≤ calculate_similarity_score ctx t1 t2 * similarity_weight +
          calculate_keyword_score ctx t1 t2 * keyword_weight) := by
  have hkw : 0 ≤ calculate_keyword_score ctx t1 t2 ∧
      calculate_keyword_score ctx t1 t2 ≤ 1 := by
    simp only [calculate_keyword_score]
    by_cases h : ctx.lemmaSet t1 ∪ ctx.lemmaSet t2 = ∅
    · rw [if_pos h]
      norm_num
    · rw [if_neg h]
      have hpos : 0 < ((ctx.lemmaSet t1 ∪ ctx.lemmaSet t2).card : ℚ) := by
        exact_mod_cast Finset.card_pos.mpr (Finset.nonempty_iff_ne_empty.mpr h)
      constructor
      · positivity
      · rw [div_le_one hpos]
        exact_mod_cast Finset.card_le_card Finset.inter_subset_union
  have hsim : -1 ≤ calculate_similarity_score ctx t1 t2 ∧
      calculate_similarity_score ctx t1 t2 ≤ 1 := by
    unfold calculate_similarity_score
    split
    · norm_num
    · exact hcos t1 t2
  have hnn : (∀ a b : String, 0 ≤ ctx.sim a b) →
      0 ≤ calculate_similarity_score ctx t1 t2 := by
    intro hpos
    unfold calculate_similarity_score
    split
    · norm_num
    · exact hpos t1 t2
  obtain ⟨k1, k2⟩ := hkw
  obtain ⟨s1, s2⟩ := hsim
  have hw1 : similarity_weight = 7/10 := by norm_num [similarity_weight]
  have hw2 : keyword_weight = 3/10 := by norm_num [keyword_weight]
  refine ⟨⟨k1, k2⟩, ⟨s1, s2⟩, ⟨?_, ?_⟩, fun hpos => ⟨hnn hpos, ?_⟩⟩
  · rw [hw1, hw2]
    linarith
  · rw [hw1, hw2]
    linarith
  · have h5 := hnn hpos
    rw [hw1, hw2]
    linarith

/-- Witness for C1 amended: the bounds instantiated in the all-failing context,
whose cosine is constantly 0. -/
theorem scorer_bounds_witness :
    (0 ≤ calculate_keyword_score ctx0 "a" "b" ∧ calculate_keyword_score ctx0 "a" "b" ≤ 1) ∧
    (-1 ≤ calculate_similarity_score ctx0 "a" "b" ∧ calculate_similarity_score ctx0 "a" "b" ≤ 1) :=
  ⟨(scorer_bounds ctx0 "a" "b" (fun a b => by norm_num [ctx0])).1,
   (scorer_bounds ctx0 "a" "b" (fun a b => by norm_num [ctx0])).2.1⟩

/-! ## Orchestrator structure -/

/-- The record-appending loop over the existing-mapping concepts is a `map`. -/
lemma foldl_append_map {α β : Type} (f : α → β) (l : List α) (init : List β) :
    l.foldl (fun acc c => acc ++ [f c]) init = init ++ l.map f := by
  induction l generalizing init with
  | nil => simp
  | cons c t ih => simp [ih]

/-- The conditional record-appending loop over the remaining concepts is a
`filterMap`. -/
lemma foldl_append_filterMap {α β : Type} (g : α → Option β) (l : List α)
    (init : List β) :
    l.foldl (fun acc c => acc ++ (g c).toList) init = init ++ l.filterMap g := by
  induction l generalizing init with
  | nil => simp
  | cons c t ih => cases hg : g c <;> simp [hg, ih]

/-- The batch output decomposes into the existing-mapping block followed by the
generated block, each in source row order. -/
lemma create_mapping_file_eq (ctx : IcdCtx) (concepts : List SourceConcept) :
    create_mapping_file ctx concepts =
      (concepts.filter (fun c => c.existing_icd_mapping.isSome)).map (existingRow ctx) ++
      (concepts.filter (fun c => !c.existing_icd_mapping.isSome)).filterMap (newRecord ctx) := by
  simp only [create_mapping_file]
  rw [foldl_append_map (existingRow ctx), foldl_append_filterMap (newRecord ctx)]
  simp

/-- Every generated record carries provenance "generated". -/
lemma newRecord_source {ctx : IcdCtx} {c : SourceConcept} {r : MappingRow}
    (h : newRecord ctx c = some r) : r.mapping_source = "generated" := by
  unfold newRecord generatedRow at h
  split at h
  · exact absurd h (by simp)
  · split at h
    · exact absurd h (by simp)
    · simp only [Option.some.injEq] at h
      subst h
      rfl

/-- C10: in the final artifact every existing-provenance record appears before
every generated-provenance record, and each of the two blocks lists its records
in the order of the concepts' source rows. -/
theorem artifact_existing_block_first (ctx : IcdCtx) (concepts : List SourceConcept) :
    create_mapping_file ctx concepts =
      (concepts.filter (fun c => c.existing_icd_mapping.isSome)).map (existingRow ctx) ++
      (concepts.filter (fun c => !c.existing_icd_mapping.isSome)).filterMap (newRecord ctx) ∧
    (∀ r ∈ (concepts.filter (fun c => c.existing_icd_mapping.isSome)).map (existingRow ctx),
      r.mapping_source = "existing") ∧
    (∀ r ∈ (concepts.filter (fun c => !c.existing_icd_mapping.isSome)).filterMap (newRecord ctx),
      r.mapping_source = "generated") ∧
    (create_mapping_file ctx concepts).Pairwise
      (fun r1 r2 => r1.mapping_source = "existing" ∨ r2.mapping_source = "generated") := by
  have hex : ∀ r ∈ (concepts.filter (fun c => c.existing_icd_mapping.isSome)).map
      (existingRow ctx), r.mapping_source = "existing" := by
    intro r hr
    obtain ⟨c, _, rfl⟩ := List.mem_map.mp hr
    rfl
  have hgen : ∀ r ∈ (concepts.filter (fun c => !c.existing_icd_mapping.isSome)).filterMap
      (newRecord ctx), r.mapping_source = "generated" := by
    intro r hr
    obtain ⟨c, _, hc⟩ := List.mem_filterMap.mp hr
    exact newRecord_source hc
  refine ⟨create_mapping_file_eq ctx concepts, hex, hgen, ?_⟩
  rw [create_mapping_file_eq]
  refine List.pairwise_append.mpr ⟨?_, ?_, ?_⟩
  · exact List.pairwise_of_forall_mem_list (fun a ha b _ => Or.inl (hex a ha))
  · exact List.pairwise_of_forall_mem_list (fun a _ b hb => Or.inr (hgen b hb))
  · exact fun a ha b _ => Or.inl (hex a ha)

/-- Witness for C10: a two-concept batch puts the existing-mapping record
first even though its concept comes second in the source, and the record's
provenance is "existing". -/
theorem artifact_existing_block_first_witness :
    create_mapping_file ctx0 [plainConcept, emptyTermConcept] =
      [existingRow ctx0 emptyTermConcept] ∧
    (existingRow ctx0 emptyTermConcept).mapping_source = "existing" := by
  have h := artifact_existing_block_first ctx0 [plainConcept, emptyTermConcept]
  refine ⟨?_, h.2.1 (existingRow ctx0 emptyTermConcept) (by decide)⟩
  rw [h.1]
  decide

/-! ## C2: empty-term concepts -/

/-- Counterexample to C2 as stated: a concept whose term is whitespace-only but
which carries an existing reference mapping still produces a mapping record —
the empty-term guard only protects the resolver path. -/
theorem empty_term_with_existing_mapping_emits :
    pyStrip emptyTermConcept.term = "" ∧
    emptyTermConcept.existing_icd_mapping.isSome = true ∧
    create_mapping_file ctx0 [emptyTermConcept] = [existingRow ctx0 emptyTermConcept] ∧
    create_mapping_file ctx0 [emptyTermConcept] ≠ [] := by
  refine ⟨by decide, rfl, ?_, ?_⟩ <;>
    · rw [create_mapping_file_eq]
      decide

/-- Restricting the needs-mapping list to concepts with a nonempty stripped
term does not change what the generated loop emits: the loop's own guard
already drops the others. -/
lemma filterMap_newRecord_keep (ctx : IcdCtx) (l : List SourceConcept) :
    (l.filter (fun c => !c.existing_icd_mapping.isSome &&
        (c.existing_icd_mapping.isSome || !(pyStrip c.term == "")))).filterMap
          (newRecord ctx) =
    (l.filter (fun c => !c.existing_icd_mapping.isSome)).filterMap (newRecord ctx) := by
  induction l with
  | nil => rfl
  | cons c t ih =>
    simp only [List.filter_cons]
    by_cases hs : c.existing_icd_mapping.isSome
    · rw [if_neg (by simp [hs]), if_neg (by simp [hs])]
      exact ih
    · by_cases ht : pyStrip c.term = ""
      · have hnone : newRecord ctx c = none := by
          unfold newRecord
          rw [if_pos ht]
        rw [if_neg (by simp [hs, ht]), if_pos (by simp [hs])]
        simp only [List.filterMap_cons, hnone]
        exact ih
      · rw [if_pos (by simp [hs, ht]), if_pos (by simp [hs])]
        simp only [List.filterMap_cons]
        cases hg : newRecord ctx c <;> simp only [hg] <;> rw [ih]

/-- C2 amended: a concept whose term strips to the empty string contributes no
record when it has no existing mapping — dropping exactly those concepts from
the input leaves the batch output unchanged; with an existing mapping the term
is never consulted. -/
theorem empty_term_skipped_unless_existing (ctx : IcdCtx) (concepts : List SourceConcept) :
    create_mapping_file ctx concepts =
      create_mapping_file ctx (concepts.filter
        (fun c => c.existing_icd_mapping.isSome || !(pyStrip c.term == ""))) := by
  rw [create_mapping_file_eq, create_mapping_file_eq]
  have h1 : (concepts.filter
        (fun c => c.existing_icd_mapping.isSome || !(pyStrip c.term == ""))).filter
          (fun c => c.existing_icd_mapping.isSome) =
      concepts.filter (fun c => c.existing_icd_mapping.isSome) := by
    rw [List.filter_filter]
    apply List.filter_congr
    intro c _
    cases h : c.existing_icd_mapping.isSome <;> simp [h]
  have h2 : ((concepts.filter
        (fun c => c.existing_icd_mapping.isSome || !(pyStrip c.term == ""))).filter
          (fun c => !c.existing_icd_mapping.isSome)).filterMap (newRecord ctx) =
      (concepts.filter (fun c => !c.existing_icd_mapping.isSome)).filterMap
        (newRecord ctx) := by
    rw [List.filter_filter]
    exact filterMap_newRecord_keep ctx concepts
  rw [h1, h2]

/-! ## C3: existing mappings are authoritative -/

/-- C3: every existing-mapping concept yields a record with confidence 1.0,
equivalence "equivalent" and provenance "existing"; the batch emits exactly one
existing-provenance record per such concept; and when the lookup chain for the
reference term fails — the search call raising, or the details call raising on
the found stem — the record's term is the placeholder rather than the record
being dropped. -/
theorem existing_mapping_record_fields (ctx : IcdCtx) (concepts : List SourceConcept)
    (c : SourceConcept) (code : String) :
    (existingRow ctx c).confidence_score = 1 ∧
    (existingRow ctx c).equivalence = "equivalent" ∧
    (existingRow ctx c).mapping_source = "existing" ∧
    ((create_mapping_file ctx concepts).countP (fun r => r.mapping_source == "existing") =
      concepts.countP (fun c2 => c2.existing_icd_mapping.isSome)) ∧
    (ctx.searchCode code = none →
      get_icd_term_for_existing_mapping ctx code = "Unknown ICD Term") ∧
    (∀ stemId, ctx.searchCode code = some (some stemId) →
      ctx.detailsTitle (lastSeg stemId) = none →
      get_icd_term_for_existing_mapping ctx code = "Unknown ICD Term") := by
  refine ⟨rfl, rfl, rfl, ?_, ?_, ?_⟩
  · rw [create_mapping_file_eq, List.countP_append]
    have h1 : ((concepts.filter (fun c2 => c2.existing_icd_mapping.isSome)).map
        (existingRow ctx)).countP (fun r => r.mapping_source == "existing") =
        concepts.countP (fun c2 => c2.existing_icd_mapping.isSome) := by
      rw [List.countP_map]
      have : ∀ x ∈ concepts.filter (fun c2 => c2.existing_icd_mapping.isSome),
          (((fun r => r.mapping_source == "existing") ∘ existingRow ctx) x) ↔
            ((fun _ => true) x) := by
        intro x _
        simp [Function.comp, existingRow]
      rw [List.countP_congr this, List.countP_true, ← List.countP_eq_length_filter]
    have h2 : ((concepts.filter (fun c2 => !c2.existing_icd_mapping.isSome)).filterMap
        (newRecord ctx)).countP (fun r => r.mapping_source == "existing") = 0 := by
      rw [List.countP_eq_zero]
      intro r hr
      obtain ⟨c2, _, hc2⟩ := List.mem_filterMap.mp hr
      simp [newRecord_source hc2]
    rw [h1, h2, Nat.add_zero]
  · intro h
    unfold get_icd_term_for_existing_mapping
    simp only [h]
  · intro stemId h1 h2
    unfold get_icd_term_for_existing_mapping
    simp only [h1, h2]

/-- Witness for C3: the record fields and the placeholder term evaluated on the
whitespace-term concept in the all-failing context. -/
theorem existing_mapping_record_fields_witness :
    (existingRow ctx0 emptyTermConcept).confidence_score = 1 ∧
    (existingRow ctx0 emptyTermConcept).mapping_source = "existing" ∧
    ((create_mapping_file ctx0 [emptyTermConcept]).countP
        (fun r => r.mapping_source == "existing") =
      [emptyTermConcept].countP (fun c2 => c2.existing_icd_mapping.isSome)) ∧
    get_icd_term_for_existing_mapping ctx0 "SR11" = "Unknown ICD Term" := by
  have h := existing_mapping_record_fields ctx0 [emptyTermConcept] emptyTermConcept "SR11"
  exact ⟨h.1, h.2.2.1, h.2.2.2.1, h.2.2.2.2.1 rfl⟩

/-! ## C5: ranking order and stability -/

/-- The descending-score comparison is transitive. -/
lemma byScoreDesc_trans : ∀ a b c : Suggestion,
    byScoreDesc a b → byScoreDesc b c → byScoreDesc a c := by
  intro a b c hab hbc
  simp only [byScoreDesc, decide_eq_true_eq] at *
  exact le_trans hbc hab

/-- The descending-score comparison is total. -/
lemma byScoreDesc_total : ∀ a b : Suggestion, byScoreDesc a b || byScoreDesc b a := by
  intro a b
  simp only [byScoreDesc, Bool.or_eq_true, decide_eq_true_eq]
  exact le_total b.score a.score

/-- The ranked list is pairwise non-increasing in score. -/
lemma rankSuggestions_sorted (l : List Suggestion) :
    (rankSuggestions l).Pairwise (fun x y => y.score ≤ x.score) := by
  have h := List.sorted_mergeSort byScoreDesc_trans byScoreDesc_total l
  exact h.imp (fun hxy => by simpa [byScoreDesc] using hxy)

/-- C5: the resolver's output is sorted by combined score, descending; two
equally-scored entries keep their relative order from the scored list, hence
from the search result order; and the head of the ranked list — the persisted
suggestion — has maximal score. -/
theorem ranking_sorted_and_stable (ctx : IcdCtx) (t d : String) (n : ℕ)
    (l : List Suggestion) (a b : Suggestion) (c1 c2 : Candidate)
    (cands : List Candidate) :
    (suggest_mappings ctx t d n).Pairwise (fun x y => y.score ≤ x.score) ∧
    (rankSuggestions l).Pairwise (fun x y => y.score ≤ x.score) ∧
    (a.score = b.score → [a, b] <+ l → [a, b] <+ rankSuggestions l) ∧
    ([c1, c2] <+ cands → scoreCandidate ctx d c1 = some a →
      scoreCandidate ctx d c2 = some b → a.score = b.score →
      [a, b] <+ rankSuggestions (scoredSuggestions ctx d cands)) ∧
    (∀ h tl, rankSuggestions l = h :: tl → ∀ x ∈ l, x.score ≤ h.score) := by
  have hstable : ∀ (l' : List Suggestion) (x y : Suggestion), x.score = y.score →
      [x, y] <+ l' → [x, y] <+ rankSuggestions l' := by
    intro l' x y hxy hsub
    exact List.pair_sublist_mergeSort byScoreDesc_trans byScoreDesc_total
      (by simp [byScoreDesc, hxy]) hsub
  refine ⟨?_, rankSuggestions_sorted l, hstable l a b, ?_, ?_⟩
  · by_cases hc : ctx.searchConditions (t ++ " " ++ d) 20 = []
    · simp [suggest_mappings, hc]
    · simp only [suggest_mappings, if_neg hc]
      exact (rankSuggestions_sorted _).sublist (List.take_sublist _ _)
  · intro hsub h1 h2 hab
    have hpair : [a, b] <+ scoredSuggestions ctx d cands := by
      have := hsub.filterMap (scoreCandidate ctx d)
      simpa [h1, h2, scoredSuggestions] using this
    exact hstable _ a b hab hpair
  · intro h tl heq x hx
    have hmem : x ∈ rankSuggestions l := by
      simpa [rankSuggestions] using hx
    rw [heq] at hmem
    rcases List.mem_cons.mp hmem with rfl | hmem
    · exact le_refl _
    · have hp := rankSuggestions_sorted l
      rw [heq] at hp
      exact (List.pairwise_cons.mp hp).1 x hmem

/-- Witness for C5: two equal-scored suggestions stay in input order through
the ranking, both when given directly and when produced from two search
candidates, and the head of the ranked list score-dominates the input. -/
theorem ranking_sorted_and_stable_witness :
    ([sZero1, sZero2] <+ rankSuggestions [sZero1, sZero2]) ∧
    ([sZero1, sZero2] <+ rankSuggestions (scoredSuggestions ctx0 "d" [cand1, cand2])) ∧
    (∀ x ∈ [sZero1, sZero2], x.score ≤ sZero1.score) := by
  have h := ranking_sorted_and_stable ctx0 "d" "d" 5 [sZero1, sZero2] sZero1 sZero2
    cand1 cand2 [cand1, cand2]
  have hrank : rankSuggestions [sZero1, sZero2] = [sZero1, sZero2] := by
    unfold rankSuggestions
    exact List.mergeSort_of_sorted (by decide)
  exact ⟨h.2.2.1 rfl (List.Sublist.refl _),
    h.2.2.2.1 (List.Sublist.refl _) scoreCandidate_ctx0_cand1 scoreCandidate_ctx0_cand2 rfl,
    h.2.2.2.2 sZero1 [sZero2] hrank⟩

/-! ## C9: composite code extraction -/

/-- The first character surviving the left strip is not whitespace. -/
lemma dropWS_head_not_ws : ∀ {l : List Char} {a : Char} {r : List Char},
    dropWS l = a :: r → a.isWhitespace = false := by
  intro l
  induction l with
  | nil => intro a r h; simp [dropWS] at h
  | cons c t ih =>
    intro a r h
    by_cases hc : c.isWhitespace
    · rw [dropWS, List.dropWhile_cons_of_pos hc] at h
      exact ih h
    · rw [dropWS, List.dropWhile_cons_of_neg hc] at h
      cases h
      exact Bool.eq_false_iff.mpr hc

/-- Appending a non-whitespace character leaves the right trim untouched. -/
lemma trimRight_snoc_not_ws (l : List Char) {c : Char} (hc : ¬c.isWhitespace) :
    trimRight (l ++ [c]) = l ++ [c] := by
  unfold trimRight
  rw [List.reverse_append]
  simp only [List.reverse_cons, List.reverse_nil, List.nil_append, List.singleton_append]
  rw [List.dropWhile_cons_of_neg hc]
  simp

/-- Appending one whitespace character is absorbed by the right trim. -/
lemma trimRight_snoc_ws (l : List Char) {c : Char} (hc : c.isWhitespace) :
    trimRight (l ++ [c]) = trimRight l := by
  unfold trimRight
  rw [List.reverse_append]
  simp only [List.reverse_cons, List.reverse_nil, List.nil_append, List.singleton_append]
  rw [List.dropWhile_cons_of_pos hc]

/-- Scanning step of the parenthesis search at an opening parenthesis. -/
lemma parenContent_open (rest : List Char) :
    parenContent ('(' :: rest) =
      (if rest.takeWhile (· ≠ ')') ≠ [] ∧ rest.dropWhile (· ≠ ')') ≠ []
        then some (rest.takeWhile (· ≠ ')')) else parenContent rest) := by
  simp only [parenContent]
  simp

/-- Scanning step of the parenthesis search at any other character. -/
lemma parenContent_skip {c : Char} (hc : ¬(c = '(')) (rest : List Char) :
    parenContent (c :: rest) = parenContent rest := by
  simp only [parenContent]
  rw [if_neg hc]

/-- On a composite code `<prefix-part> (<sub>)` the parenthesis search returns
exactly the sub-identifier. -/
lemma parenContent_composite (sub : List Char) (hsub1 : sub ≠ [])
    (hsub2 : ')' ∉ sub) :
    ∀ l : List Char, '(' ∉ l →
      parenContent (l ++ ' ' :: '(' :: (sub ++ [')'])) = some sub := by
  have hmem : ∀ a ∈ sub, (decide (a ≠ ')') = true) := by
    intro a ha
    simp only [decide_eq_true_eq]
    intro h
    exact hsub2 (h ▸ ha)
  have htake : (sub ++ [')']).takeWhile (· ≠ ')') = sub := by
    rw [List.takeWhile_append_of_pos hmem]
    rw [List.takeWhile_cons_of_neg (by simp)]
    simp
  have hdrop : (sub ++ [')']).dropWhile (· ≠ ')') = [')'] := by
    rw [List.dropWhile_append_of_pos hmem]
    rw [List.dropWhile_cons_of_neg (by simp)]
  intro l
  induction l with
  | nil =>
    intro _
    rw [List.nil_append, parenContent_skip (by decide), parenContent_open,
      htake, hdrop]
    rw [if_pos ⟨hsub1, by simp⟩]
  | cons c t ih =>
    intro hl
    rw [List.cons_append,
      parenContent_skip (fun h => hl (h ▸ List.mem_cons_self c t))]
    exact ih (fun hm => hl (List.mem_cons_of_mem c hm))

/-- C9: for a composite source code `<prefix-part> (<sub-identifier>)` the
loader recognises the trimmed leading part as the existing reference code
exactly when it starts with one of the valid prefixes SR, SK, SM, SL, SN, SP,
SQ, and the canonical local code is the parenthesized sub-identifier; a code
with no parenthesized group is its own canonical code. -/
theorem composite_code_extraction (p sub : String)
    (hp : '(' ∉ p.data) (hsub1 : sub.data ≠ []) (hsub2 : ')' ∉ sub.data) :
    extract_namaste_id (p ++ " (" ++ sub ++ ")") = sub ∧
    extract_icd_mapping (p ++ " (" ++ sub ++ ")") =
      (if validIcdStarts.any (fun v => pyStartsWith (pyStrip p) v)
        then some (pyStrip p) else none) ∧
    (∀ s : String, parenContent s.data = none → extract_namaste_id s = s) := by
  have hdata : (p ++ " (" ++ sub ++ ")").data =
      p.data ++ ' ' :: '(' :: (sub.data ++ [')']) := by
    have hsp : (" (" : String).data = [' ', '('] := rfl
    have hcp : (")" : String).data = [')'] := rfl
    simp [hsp, hcp]
  refine ⟨?_, ?_, fun s hs => ?_⟩
  · unfold extract_namaste_id
    rw [hdata, parenContent_composite sub.data hsub1 hsub2 p.data hp]
  · by_cases hA : dropWS p.data = []
    · have ht : stripList (p ++ " (" ++ sub ++ ")").data =
          '(' :: (sub.data ++ [')']) := by
        rw [hdata]
        unfold stripList dropWS
        rw [List.dropWhile_append,
          if_pos (by simpa [List.isEmpty_iff, dropWS] using hA)]
        rw [List.dropWhile_cons_of_pos (by decide),
          List.dropWhile_cons_of_neg (by decide)]
        have hassoc : ('(' : Char) :: (sub.data ++ [')']) =
            ('(' :: sub.data) ++ [')'] := by simp
        rw [hassoc, trimRight_snoc_not_ws _ (by decide), ← hassoc]
      have hps : pyStrip p = "" := by
        unfold pyStrip stripList
        rw [hA]
        rfl
      simp only [extract_icd_mapping]
      rw [ht, List.takeWhile_cons_of_neg (by decide), if_pos rfl, hps]
      rw [if_neg (by decide)]
    · obtain ⟨a, A', hA'⟩ : ∃ a A', dropWS p.data = a :: A' := by
        rcases h : dropWS p.data with _ | ⟨a, A'⟩
        · exact absurd h hA
        · exact ⟨a, A', rfl⟩
      have haws : a.isWhitespace = false := dropWS_head_not_ws hA'
      have hnoparen : ∀ x ∈ dropWS p.data, (decide (x ≠ '(') = true) := by
        intro x hx
        have hxp : x ∈ p.data := by
          have hsub := List.dropWhile_sublist (l := p.data) Char.isWhitespace
          exact hsub.subset (by simpa [dropWS] using hx)
        simp only [decide_eq_true_eq]
        exact fun h => hp (h ▸ hxp)
      have hdropL : dropWS (p.data ++ ' ' :: '(' :: (sub.data ++ [')'])) =
          dropWS p.data ++ ' ' :: '(' :: (sub.data ++ [')']) := by
        unfold dropWS
        rw [List.dropWhile_append,
          if_neg (by simpa [List.isEmpty_iff, dropWS] using hA)]
      have htL : stripList (p ++ " (" ++ sub ++ ")").data =
          dropWS p.data ++ ' ' :: '(' :: (sub.data ++ [')']) := by
        rw [hdata]
        unfold stripList
        rw [hdropL]
        have hassoc : dropWS p.data ++ ' ' :: '(' :: (sub.data ++ [')']) =
            (dropWS p.data ++ ' ' :: '(' :: sub.data) ++ [')'] := by simp
        rw [hassoc, trimRight_snoc_not_ws _ (by decide), ← hassoc]
      have hmatched : (dropWS p.data ++ ' ' :: '(' :: (sub.data ++ [')'])).takeWhile
          (· ≠ '(') = dropWS p.data ++ [' '] := by
        rw [List.takeWhile_append_of_pos hnoparen]
        rw [List.takeWhile_cons_of_pos (by decide),
          List.takeWhile_cons_of_neg (by decide)]
      have hicdpart : stripList (dropWS p.data ++ [' ']) = stripList p.data := by
        unfold stripList
        have h1 : dropWS (dropWS p.data ++ [' ']) = dropWS p.data ++ [' '] := by
          rw [hA']
          unfold dropWS
          rw [List.cons_append, List.dropWhile_cons_of_neg (by simp [haws])]
        rw [h1, trimRight_snoc_ws _ (by decide)]
      simp only [extract_icd_mapping]
      rw [htL, hmatched, if_neg (by simp), hicdpart]
      rfl
  · unfold extract_namaste_id
    rw [hs]

/-- Witness for C9: the spec's sample code splits into its reference prefix and
its local identifier. -/
theorem composite_code_extraction_witness :
    extract_namaste_id "SR11 (AAA-1)" = "AAA-1" ∧
    extract_icd_mapping "SR11 (AAA-1)" = some "SR11" := by
  have h := composite_code_extraction "SR11" "AAA-1" (by decide) (by decide) (by decide)
  have heq : ("SR11" ++ " (" ++ "AAA-1" ++ ")" : String) = "SR11 (AAA-1)" := by decide
  rw [heq] at h
  refine ⟨h.1, ?_⟩
  rw [h.2.1, if_pos (by decide)]
  decide

end AutoMap
